import Mathlib

/-!
Verification of the metatwin-functions execution core.

A shallow embedding, in Lean 4, of the Python FaaS host in `functions_core`:
the function registry (`server.py`), the execution handler with its timeout
logic (`handlers.py`), the metadata extractor (`metadata_extractor.py`),
the health-check loop (`events/health.py`) and the broker connect/backoff
logic (`events/publisher.py`), together with theorems checking the design
documentation against this embedding.

Pure fragments of the Python code become Lean functions; the behaviour of a
registered callable (its run time, its result or the exception it raises) is
supplied as explicit data, so that the deadline race in `asyncio.wait_for`
becomes a comparison between the supplied run time and the timeout of the handler.
Machine floats used for timeouts are modelled as rationals.
-/

namespace FunctionsCore

/-- A single-quote character, used in the error-message formats of
`handlers.py` and in the type-string cleanup of `metadata_extractor.py`. -/
def sq : String := String.singleton (Char.ofNat 39)

/-- JSON-representable values exchanged with registered functions
(arguments, results, response metadata). -/
inductive Value where
  | null
  | bool (b : Bool)
  | num (n : ℤ)
  | str (s : String)
  | arr (xs : List Value)

/-- An argument mapping, as passed in `FunctionExecutionRequest.args`. -/
abbrev Args := List (String × Value)

/-- What the body of an invoked coroutine does once it is allowed to finish:
return a value, or raise (a `TypeError`, or any other exception). -/
inductive BodyOutcome where
  | ret (v : Value)
  | exn (isTypeError : Bool) (msg : String)

/-- The observable behaviour of one call `func(**args)` of a registered
callable: either argument binding fails immediately with a `TypeError`,
or a coroutine runs for `runtime` time units and then produces `body`. -/
inductive CallBehavior where
  | typeError (msg : String)
  | runs (runtime : ℚ) (body : BodyOutcome)

/-- A registered callable, seen through what each argument mapping makes
it do. -/
abbrev Callable := Args → CallBehavior

/-- The function registry: a Python `dict` from function name to callable,
modelled as an association list with unique keys (kept unique by
`dictInsert`). -/
abbrev Registry := List (String × Callable)

/-- `FunctionExecutionRequest` from `models.py`. -/
structure FunctionExecutionRequest where
  executionId : String
  functionName : String
  args : Args

/-- `FunctionExecutionResponse` from `models.py`. The pydantic fields
`result` and `error` default to `None`; a branch of `handle_execution` that
does not pass them leaves them at `none`. -/
structure FunctionExecutionResponse where
  success : Bool
  result : Option Value := none
  error : Option String := none
  metadata : List (String × Value) := []

/-- The Python expression `x or y` on an optional float: `None` and `0.0` are falsy and
yield `y`; any other number is returned unchanged. -/
def pyOr (x : Option ℚ) (y : ℚ) : ℚ :=
  match x with
  | none => y
  | some v => if v = 0 then y else v

/-- The state built by `FunctionHandler.__init__`: the registry plus the
effective timeout, fixed once at construction. -/
structure FunctionHandler where
  function_registry : Registry
  timeout : ℚ

/-- `FunctionHandler.__init__` (handlers.py lines 15-28).
`envTimeout` and `envMaxTimeout` model the `CRBR_FUNCTIONS_TIMEOUT` and
`CRBR_FUNCTIONS_MAX_TIMEOUT` environment variables (`none` = unset, so the
string defaults `30` and `300` apply). The effective timeout is
`min(timeout or default_timeout, max_timeout)`. -/
def FunctionHandler.init (function_registry : Registry) (timeout : Option ℚ)
    (envTimeout envMaxTimeout : Option ℚ) : FunctionHandler :=
  let default_timeout : ℚ := envTimeout.getD 30
  let max_timeout : ℚ := envMaxTimeout.getD 300
  ⟨function_registry, min (pyOr timeout default_timeout) max_timeout⟩

/-- The error message of the `asyncio.TimeoutError` branch of
`handle_execution` (handlers.py line 96). -/
def timeoutErrorMsg (funcName : String) (t : ℚ) : String :=
  "Function " ++ sq ++ funcName ++ sq ++ " execution timed out after "
    ++ toString t ++ " seconds"

/-- The error message of the function-not-found branch (handlers.py
line 63). -/
def notFoundMsg (funcName : String) : String :=
  "Function " ++ sq ++ funcName ++ sq ++ " not found"

/-- The error message of the `TypeError` branch (handlers.py line 115). -/
def invalidArgsMsg (funcName msg : String) : String :=
  "Invalid arguments for function " ++ sq ++ funcName ++ sq ++ ": " ++ msg

/-- The error message of the generic exception branch (handlers.py
line 134). -/
def executionFailedMsg (msg : String) : String :=
  "Function execution failed: " ++ msg

/-- `FunctionHandler.handle_execution` (handlers.py lines 30-149).

Besides the response, the embedding returns the `status` tag the code
attaches to its final log entry for the request (`"error"`, `"success"` or
`"timeout"`), so that which `except` branch ran is observable.

The deadline race of `asyncio.wait_for(func(**args), timeout=self.timeout)`
is modelled as: the call times out when the run time of the coroutine strictly
exceeds `self.timeout`; otherwise the outcome of the body itself surfaces and is
dispatched to the `except TypeError` / `except Exception` branches. Every
branch returns a response; no exception escapes. -/
def FunctionHandler.handle_execution (h : FunctionHandler)
    (request : FunctionExecutionRequest) : FunctionExecutionResponse × String :=
  let meta : List (String × Value) := [("executionId", Value.str request.executionId)]
  match List.lookup request.functionName h.function_registry with
  | none =>
      ({ success := false, error := some (notFoundMsg request.functionName),
         metadata := meta }, "error")
  | some func =>
      match func request.args with
      | .typeError m =>
          ({ success := false,
             error := some (invalidArgsMsg request.functionName m),
             metadata := meta }, "error")
      | .runs runtime body =>
          if h.timeout < runtime then
            ({ success := false,
               error := some (timeoutErrorMsg request.functionName h.timeout),
               metadata := meta }, "timeout")
          else
            match body with
            | .ret v =>
                ({ success := true, result := some v, metadata := meta },
                 "success")
            | .exn isTE m =>
                if isTE then
                  ({ success := false,
                     error := some (invalidArgsMsg request.functionName m),
                     metadata := meta }, "error")
                else
                  ({ success := false,
                     error := some (executionFailedMsg m),
                     metadata := meta }, "error")

/-- `s` contains `sub` as a substring. -/
def containsStr (s sub : String) : Prop :=
  ∃ pre post, s = pre ++ sub ++ post

/-- Python `dict` assignment `reg[name] = v` on the association-list model:
replace the (unique) entry for `name` if present, else append. -/
def dictInsert {α : Type} : List (String × α) → String → α → List (String × α)
  | [], n, v => [(n, v)]
  | (k, x) :: t, n, v =>
      if k = n then (n, v) :: t else (k, x) :: dictInsert t n v

/-- Result of `FunctionServer.register_function`: the updated registry and
whether the already-registered warning was logged. -/
structure RegisterResult (α : Type) where
  registry : List (String × α)
  warned : Bool

/-- `FunctionServer.register_function` (server.py lines 109-123): warn when
the name is already present, then insert-or-replace. It never fails. -/
def register_function {α : Type} (reg : List (String × α)) (func_name : String)
    (func_callable : α) : RegisterResult α :=
  ⟨dictInsert reg func_name func_callable, (List.lookup func_name reg).isSome⟩

/-- Run a sequence of `register_function` calls left to right. -/
def applyRegistrations {α : Type} (ops : List (String × α))
    (reg : List (String × α)) : List (String × α) :=
  ops.foldl (fun r p => (register_function r p.1 p.2).registry) reg

/-- A Python type-hint object, as fed to
`FunctionMetadataExtractor._type_to_string`: one of the basic types the code
special-cases, the `NoneType` class, or any other type whose `str()`
representation is `repr`. -/
inductive PyTypeHint where
  | tInt
  | tStr
  | tFloat
  | tBool
  | tBytes
  | tNoneType
  | other (repr : String)

/-- `s` contains `pat` as a substring, decidably (Python `pat in s` for a
non-empty `pat`). -/
def strContainsB (s pat : String) : Bool :=
  (s.splitOn pat).length != 1

/-- `FunctionMetadataExtractor._type_to_string` (metadata_extractor.py
lines 166-200). -/
def _type_to_string : PyTypeHint → String
  | .tInt => "int"
  | .tStr => "str"
  | .tFloat => "float"
  | .tBool => "bool"
  | .tBytes => "bytes"
  | .tNoneType => "None"
  | .other r =>
      let t := (((r.replace "typing." "").replace "<class " "").replace ">" "").replace sq ""
      if strContainsB t "Union[" && strContainsB t "None" then
        (t.replace "Union[" "Optional[").replace ", None]" "]"
      else t

/-- `ArgumentInfo` from `events/models.py`, as built by the extractor. -/
structure ArgumentInfo where
  name : String
  type : String
  required : Bool
  description : Option String
deriving DecidableEq

/-- `FunctionInfo` from `events/models.py`, as built by the extractor. -/
structure FunctionInfo where
  name : String
  description : String
  args : List ArgumentInfo
  returnType : String
deriving DecidableEq

/-- One parameter of `inspect.signature(func)`: its name and whether it has
a declared default value (`param.default != inspect.Parameter.empty`). -/
structure PyParameter where
  name : String
  hasDefault : Bool
deriving DecidableEq

/-- The declared signature of a callable: its ordered parameter list. -/
structure PySignature where
  parameters : List PyParameter

/-- The result of `typing.get_type_hints(func)`: a mapping from parameter
name (or `"return"`) to the resolved hint. A parameter whose declared type
failed to resolve — or that carries no declared type — is simply absent. -/
abbrev TypeHints := List (String × PyTypeHint)

/-- A callable as seen by the metadata extractor. `introspection` packages
`inspect.signature(func)` and `get_type_hints(func)`; `none` models those
calls raising (forward reference to an undefined name, builtin without a
signature, ...), which `extract_function_info` turns into `None`. -/
structure PyFunction where
  introspection : Option (PySignature × TypeHints)
  cerebro_description : Option String
  doc : Option String

/-- `FunctionMetadataExtractor._extract_arguments` (metadata_extractor.py
lines 84-125): skip `self`, tag a parameter absent from the hints map as
`"Any"`, mark it required iff it has no default. -/
def _extract_arguments (sig : PySignature) (type_hints : TypeHints) :
    List ArgumentInfo :=
  (sig.parameters.filter (fun p => p.name != "self")).map (fun p =>
    { name := p.name
      type := match List.lookup p.name type_hints with
              | some h => _type_to_string h
              | none => "Any"
      required := !p.hasDefault
      description := none })

/-- `FunctionMetadataExtractor._extract_return_type` (metadata_extractor.py
lines 127-140). -/
def _extract_return_type (type_hints : TypeHints) : String :=
  match List.lookup "return" type_hints with
  | some h => _type_to_string h
  | none => "Any"

/-- First line of the stripped text, Python
`description.strip().split(chr(10))[0]`. -/
def firstLine (s : String) : String :=
  (s.trim.splitOn "\n").headD ""

/-- `FunctionMetadataExtractor._extract_description` (metadata_extractor.py
lines 142-164): prefer the decorator-attached description, fall back to the
docstring, keep only the first stripped line, default to the empty
string. -/
def _extract_description (func : PyFunction) : String :=
  let description := func.cerebro_description.getD ""
  let description := if description = "" then func.doc.getD "" else description
  if description = "" then "" else firstLine description

/-- `FunctionMetadataExtractor.extract_function_info` (metadata_extractor.py
lines 44-82): introspection failure is caught and becomes `none`; otherwise
a `FunctionInfo` is always produced. -/
def extract_function_info (func_name : String) (func : PyFunction) :
    Option FunctionInfo :=
  match func.introspection with
  | none => none
  | some (sig, type_hints) =>
      some { name := func_name
             description := _extract_description func
             args := _extract_arguments sig type_hints
             returnType := _extract_return_type type_hints }

/-- `FunctionMetadataExtractor.extract_functions_metadata`
(metadata_extractor.py lines 19-42): functions whose extraction fails are
skipped, the rest are kept in registry order. -/
def extract_functions_metadata (registry : List (String × PyFunction)) :
    List FunctionInfo :=
  registry.filterMap (fun p => extract_function_info p.1 p.2)

/-- One scheduled iteration of the health-check loop, as seen from outside:
the `_running` flag at the top of the loop, and what the awaited body does
(completes, raises a non-cancellation exception, or is cancelled). -/
inductive IterEvent where
  | ok
  | err (msg : String)
  | cancelled
deriving DecidableEq

/-- Observable actions of the health-check loop. -/
inductive TraceItem where
  | publish
  | sleep (d : ℕ)
  | logError (msg : String)
deriving DecidableEq

/-- Why a run of the health-check loop ended. -/
inductive StopReason where
  | stopped
  | cancelledExit
  | pending
deriving DecidableEq

/-- `HealthCheckScheduler._health_check_loop` (events/health.py lines
92-119), run against a finite schedule of iteration events. Each list entry
is the `_running` flag read at the loop head paired with the event of that
iteration. `ok` publishes then sleeps the configured interval; a
non-cancellation error is logged and followed by a `min(interval, 30)`
retry sleep, and the loop continues; `CancelledError` breaks the loop;
a false `_running` flag (after `stop()`) exits. `pending` means the
schedule ran out with the loop still running. -/
def _health_check_loop (interval : ℕ) :
    List (Bool × IterEvent) → List TraceItem × StopReason
  | [] => ([], .pending)
  | (running, ev) :: rest =>
      if running then
        match ev with
        | .cancelled => ([], .cancelledExit)
        | .ok =>
            let r := _health_check_loop interval rest
            (.publish :: .sleep interval :: r.1, r.2)
        | .err m =>
            let r := _health_check_loop interval rest
            (.logError m :: .sleep (min interval 30) :: r.1, r.2)
      else ([], .stopped)

/-- Result of `EventPublisher.connect`: whether it returned `True`, the
sleeps performed between attempts, and how many connection attempts were
made. -/
structure ConnectResult where
  connected : Bool
  sleeps : List ℕ
  attempts : ℕ
deriving DecidableEq

/-- The retry loop of `EventPublisher.connect` (publisher.py lines 71-115).
`att i` says whether attempt `i` succeeds; `remaining` is
`max_retries - retry_count`. After a failed attempt the loop sleeps `delay`
only when another attempt remains, then doubles the delay capped at 60. -/
def connectAux (att : ℕ → Bool) : (remaining : ℕ) → (delay : ℕ) → (idx : ℕ) →
    ConnectResult
  | 0, _, _ => ⟨false, [], 0⟩
  | n + 1, delay, idx =>
      if att idx then ⟨true, [], 1⟩
      else if n = 0 then ⟨false, [], 1⟩
      else
        let r := connectAux att n (min (delay * 2) 60) (idx + 1)
        ⟨r.connected, delay :: r.sleeps, r.attempts + 1⟩

/-- `EventPublisher.connect` (publisher.py lines 49-115): return `True` at
once when already connected, `False` when RabbitMQ is not configured, else
run the bounded retry loop. Exhausting the retries returns `False`; nothing
is raised. -/
def connect (isConnected configured : Bool) (max_retries retry_delay : ℕ)
    (att : ℕ → Bool) : ConnectResult :=
  if isConnected then ⟨true, [], 0⟩
  else if !configured then ⟨false, [], 0⟩
  else connectAux att max_retries retry_delay 0

/-- The server state read by the `/ready` endpoint. `event_publisher_some`
models `self.event_publisher is not None`. -/
structure FunctionServerState where
  deployment_id : String
  function_registry : Registry
  enable_events : Bool
  event_publisher_some : Bool

/-- The `/ready` endpoint body (server.py lines 140-157), as the returned
JSON object: an association list from key to value, in the order the dict
literal writes them. -/
def ready (s : FunctionServerState) : List (String × Value) :=
  [("status", Value.str "ready"),
   ("deployment_id", Value.str s.deployment_id),
   ("function_count", Value.num (s.function_registry.length : ℤ)),
   ("functions", Value.arr (s.function_registry.map (fun p => Value.str p.1))),
   ("rabbitmq_enabled", Value.bool s.enable_events),
   ("rabbitmq_connected", Value.bool s.event_publisher_some)]

/-- The `/ready` response shape claimed by the specification, stated over
the returned key-value object: field names `status`, `deploymentId`,
`functionCount`, `functions`, `eventsEnabled`, `brokerConnected`. This
definition follows the wording of the spec, for comparison against
`ready`. -/
def readySpecShape (resp : List (String × Value)) (s : FunctionServerState) :
    Prop :=
  List.lookup "status" resp = some (Value.str "ready") ∧
  (∃ v, List.lookup "deploymentId" resp = some v) ∧
  List.lookup "functionCount" resp
    = some (Value.num (s.function_registry.length : ℤ)) ∧
  List.lookup "functions" resp
    = some (Value.arr (s.function_registry.map (fun p => Value.str p.1))) ∧
  (∃ b, List.lookup "eventsEnabled" resp = some (Value.bool b)) ∧
  (∃ b, List.lookup "brokerConnected" resp = some (Value.bool b))

/-- A registered function that runs for 31 time units and returns null. -/
def slowFn : Callable := fun _ => .runs 31 (.ret .null)

/-- A registered function that runs for 1 time unit and returns 30. -/
def addFn : Callable := fun _ => .runs 1 (.ret (.num 30))

/-- A two-entry registry used to instantiate theorems. -/
def demoRegistry : Registry := [("slow", slowFn), ("add", addFn)]

/-- A handler over `demoRegistry` with no requested timeout and no
environment overrides. -/
def demoHandler : FunctionHandler :=
  FunctionHandler.init demoRegistry none none none

theorem demoHandler_timeout : demoHandler.timeout = 30 := by
  simp [demoHandler, FunctionHandler.init, pyOr]
  norm_num

theorem handle_execution_status_timeout (h : FunctionHandler)
    (req : FunctionExecutionRequest) (f : Callable) (rt : ℚ)
    (body : BodyOutcome)
    (hl : List.lookup req.functionName h.function_registry = some f)
    (hb : f req.args = .runs rt body) :
    ((h.handle_execution req).2 = "timeout" ↔ h.timeout < rt) := by
  simp only [FunctionHandler.handle_execution, hl, hb]
  by_cases hrt : h.timeout < rt
  · simp [hrt]
  · rcases body with v | ⟨isTE, m⟩
    · simp [hrt]
    · rcases isTE <;> simp [hrt]

/-- C1: the effective per-call timeout of a `FunctionHandler` is the minimum
of the requested timeout (or, with no request, the configured default 30)
and the configured ceiling 300; and in `handle_execution` the invocation
times out exactly when its run time exceeds this deadline. (A requested
timeout of `0` is falsy in Python and counts as no request; that case is
treated separately in the claim about falsy timeouts.) -/
theorem effective_timeout_min_of_requested_and_ceiling :
    (∀ (reg : Registry) (t : ℚ), t ≠ 0 →
        (FunctionHandler.init reg (some t) none none).timeout = min t 300) ∧
    (∀ reg : Registry,
        (FunctionHandler.init reg none none none).timeout = min 30 300) ∧
    (∀ (h : FunctionHandler) (req : FunctionExecutionRequest) (f : Callable)
        (rt : ℚ) (body : BodyOutcome),
        List.lookup req.functionName h.function_registry = some f →
        f req.args = .runs rt body →
        ((h.handle_execution req).2 = "timeout" ↔ h.timeout < rt)) := by
  refine ⟨?_, ?_, handle_execution_status_timeout⟩
  · intro reg t ht
    simp [FunctionHandler.init, pyOr, ht]
  · intro reg
    simp [FunctionHandler.init, pyOr]

/-- Witness for C1: a requested timeout of 100 is clamped to
`min 100 300`, and a 31-unit function under the default 30-unit deadline is
reported as timed out. -/
theorem effective_timeout_min_witness :
    (FunctionHandler.init [] (some 100) none none).timeout = min 100 300 ∧
    (demoHandler.handle_execution ⟨"e1", "slow", []⟩).2 = "timeout" := by
  constructor
  · exact effective_timeout_min_of_requested_and_ceiling.1 [] 100 (by norm_num)
  · refine (effective_timeout_min_of_requested_and_ceiling.2.2 demoHandler
      ⟨"e1", "slow", []⟩ slowFn 31 (.ret .null) rfl rfl).mpr ?_
    rw [demoHandler_timeout]
    norm_num

/-- C2: when the run time of the looked-up function exceeds the handler timeout,
the response has `success = false` and an error string containing the
function name and the rendered timeout value; when it completes strictly
before the deadline without raising, the response has `success = true` and
`result` equal to the returned value. -/
theorem handle_execution_timeout_and_fast_path :
    ∀ (h : FunctionHandler) (req : FunctionExecutionRequest) (f : Callable)
      (rt : ℚ) (body : BodyOutcome),
      List.lookup req.functionName h.function_registry = some f →
      f req.args = .runs rt body →
      ((h.timeout < rt →
          (h.handle_execution req).1.success = false ∧
          ∃ e, (h.handle_execution req).1.error = some e ∧
            containsStr e req.functionName ∧
            containsStr e (toString h.timeout)) ∧
       (∀ v, rt < h.timeout → body = .ret v →
          (h.handle_execution req).1.success = true ∧
          (h.handle_execution req).1.result = some v)) := by
  intro h req f rt body hl hb
  constructor
  · intro hrt
    have hresp : h.handle_execution req
        = ({ success := false,
             error := some (timeoutErrorMsg req.functionName h.timeout),
             metadata := [("executionId", Value.str req.executionId)] },
           "timeout") := by
      simp only [FunctionHandler.handle_execution, hl, hb, if_pos hrt]
    rw [hresp]
    refine ⟨rfl, timeoutErrorMsg req.functionName h.timeout, rfl, ?_, ?_⟩
    · exact ⟨"Function " ++ sq,
        sq ++ " execution timed out after " ++ toString h.timeout ++ " seconds",
        by simp [timeoutErrorMsg, String.append_assoc]⟩
    · exact ⟨"Function " ++ sq ++ req.functionName ++ sq
          ++ " execution timed out after ", " seconds",
        by simp [timeoutErrorMsg, String.append_assoc]⟩
  · intro v hrt hbody
    subst hbody
    have hresp : h.handle_execution req
        = ({ success := true, result := some v,
             metadata := [("executionId", Value.str req.executionId)] },
           "success") := by
      simp only [FunctionHandler.handle_execution, hl, hb,
        if_neg (not_lt.mpr hrt.le)]
    rw [hresp]
    exact ⟨rfl, rfl⟩

/-- Witness for C2: the 31-unit function under the 30-unit deadline yields
`success = false` with the timeout message, and the 1-unit function yields
`success = true` with its return value. -/
theorem handle_execution_timeout_and_fast_path_witness :
    ((demoHandler.handle_execution ⟨"e1", "slow", []⟩).1.success = false ∧
      ∃ e, (demoHandler.handle_execution ⟨"e1", "slow", []⟩).1.error = some e ∧
        containsStr e "slow" ∧ containsStr e (toString demoHandler.timeout)) ∧
    ((demoHandler.handle_execution ⟨"e2", "add", []⟩).1.success = true ∧
      (demoHandler.handle_execution ⟨"e2", "add", []⟩).1.result
        = some (.num 30)) := by
  constructor
  · exact (handle_execution_timeout_and_fast_path demoHandler
      ⟨"e1", "slow", []⟩ slowFn 31 (.ret .null) rfl rfl).1
      (by rw [demoHandler_timeout]; norm_num)
  · exact (handle_execution_timeout_and_fast_path demoHandler
      ⟨"e2", "add", []⟩ addFn 1 (.ret (.num 30)) rfl rfl).2 (.num 30)
      (by rw [demoHandler_timeout]; norm_num) rfl

/-- C3: in every branch of `handle_execution` exactly one of
`result`/`error` is set, matching the `success` flag; and the embedding is
a total function, so every request produces a response (no branch
re-raises). -/
theorem handle_execution_result_error_exclusive :
    ∀ (h : FunctionHandler) (req : FunctionExecutionRequest),
      (h.handle_execution req).1.error.isNone = (h.handle_execution req).1.success ∧
      (h.handle_execution req).1.result.isSome = (h.handle_execution req).1.success := by
  intro h req
  rcases hl : List.lookup req.functionName h.function_registry with _ | f <;>
    simp only [FunctionHandler.handle_execution, hl]
  · simp
  · rcases hb : f req.args with m | ⟨rt, body⟩ <;> simp only [hb]
    · simp
    · by_cases hrt : h.timeout < rt
      · simp [hrt]
      · rcases body with v | ⟨isTE, m⟩
        · simp [hrt]
        · rcases isTE <;> simp [hrt]

/-- C4: every branch of `handle_execution` returns metadata that is exactly
the singleton `executionId ↦ request.executionId`, for every request —
in particular when `executionId` is the empty string. -/
theorem handle_execution_metadata_echoes_executionId :
    ∀ (h : FunctionHandler) (req : FunctionExecutionRequest),
      (h.handle_execution req).1.metadata
        = [("executionId", Value.str req.executionId)] := by
  intro h req
  rcases hl : List.lookup req.functionName h.function_registry with _ | f <;>
    simp only [FunctionHandler.handle_execution, hl]
  rcases hb : f req.args with m | ⟨rt, body⟩ <;> simp only [hb]
  by_cases hrt : h.timeout < rt
  · simp [hrt]
  · rcases body with v | ⟨isTE, m⟩
    · simp [hrt]
    · rcases isTE <;> simp [hrt]

theorem lookup_append_or {α : Type} (n : String) (l1 l2 : List (String × α)) :
    List.lookup n (l1 ++ l2) = (List.lookup n l1).or (List.lookup n l2) := by
  induction l1 with
  | nil => simp
  | cons q t ih => cases h : n == q.1 <;> simp [List.lookup, h, ih]

theorem lookup_dictInsert {α : Type} (reg : List (String × α)) (n m : String)
    (v : α) :
    List.lookup m (dictInsert reg n v)
      = if m = n then some v else List.lookup m reg := by
  induction reg with
  | nil =>
      by_cases hmn : m = n
      · simp [dictInsert, List.lookup, hmn]
      · simp [dictInsert, List.lookup, hmn, beq_eq_false_iff_ne.mpr hmn]
  | cons p t ih =>
      obtain ⟨k, x⟩ := p
      by_cases hkn : k = n
      · subst hkn
        by_cases hmk : m = k
        · simp [dictInsert, List.lookup, hmk]
        · simp [dictInsert, List.lookup, hmk, beq_eq_false_iff_ne.mpr hmk]
      · by_cases hmk : m = k
        · subst hmk
          have hmn : ¬ m = n := hkn
          simp [dictInsert, List.lookup, hkn, hmn]
        · simp [dictInsert, List.lookup, hkn, hmk,
            beq_eq_false_iff_ne.mpr hmk, ih]

theorem mem_keys_dictInsert {α : Type} (reg : List (String × α)) (n m : String)
    (v : α) :
    m ∈ (dictInsert reg n v).map Prod.fst ↔ m = n ∨ m ∈ reg.map Prod.fst := by
  induction reg with
  | nil => simp [dictInsert]
  | cons p t ih =>
      obtain ⟨k, x⟩ := p
      by_cases hkn : k = n
      · subst hkn
        simp [dictInsert]
      · simp [dictInsert, hkn, ih]
        tauto

theorem nodup_keys_dictInsert {α : Type} {reg : List (String × α)} {n : String}
    {v : α} (h : (reg.map Prod.fst).Nodup) :
    ((dictInsert reg n v).map Prod.fst).Nodup := by
  induction reg with
  | nil => simp [dictInsert]
  | cons p t ih =>
      obtain ⟨k, x⟩ := p
      simp only [List.map_cons, List.nodup_cons] at h
      by_cases hkn : k = n
      · subst hkn
        simpa [dictInsert] using h
      · simp only [dictInsert, hkn, if_false, List.map_cons, List.nodup_cons]
        refine ⟨fun hmem => ?_, ih h.2⟩
        rcases (mem_keys_dictInsert t n k v).mp hmem with rfl | hk
        · exact hkn rfl
        · exact h.1 hk

theorem lookup_applyRegistrations {α : Type} :
    ∀ (ops reg : List (String × α)) (n : String),
      List.lookup n (applyRegistrations ops reg)
        = (List.lookup n ops.reverse).or (List.lookup n reg) := by
  intro ops
  induction ops with
  | nil => intro reg n; simp [applyRegistrations]
  | cons p t ih =>
      intro reg n
      obtain ⟨pn, pv⟩ := p
      show List.lookup n (applyRegistrations t (dictInsert reg pn pv)) = _
      rw [ih, lookup_dictInsert, List.reverse_cons, lookup_append_or]
      by_cases hn : n = pn
      · subst hn
        cases ht : List.lookup n t.reverse <;> simp [List.lookup]
      · cases ht : List.lookup n t.reverse <;>
          simp [List.lookup, hn, beq_eq_false_iff_ne.mpr hn]

/-- C5: after any sequence of `register_function` calls, looking up a name
yields the callable of its most recent registration (last-write-wins, with
the starting registry as fallback); registering an already-present name
sets the overwrite-warning flag (and never fails — the operation is a total
function); and a registry built by registrations from empty always has
pairwise-distinct names. -/
theorem register_function_last_write_wins :
    (∀ (α : Type) (ops reg : List (String × α)) (n : String),
        List.lookup n (applyRegistrations ops reg)
          = (List.lookup n ops.reverse).or (List.lookup n reg)) ∧
    (∀ (α : Type) (reg : List (String × α)) (n : String) (v : α),
        (register_function reg n v).warned = true
          ↔ ∃ w, List.lookup n reg = some w) ∧
    (∀ (α : Type) (ops : List (String × α)),
        ((applyRegistrations ops ([] : List (String × α))).map
          Prod.fst).Nodup) := by
  refine ⟨fun α => lookup_applyRegistrations, ?_, ?_⟩
  · intro α reg n v
    simp [register_function, Option.isSome_iff_exists]
  · intro α ops
    have : ∀ (ops reg : List (String × α)), (reg.map Prod.fst).Nodup →
        ((applyRegistrations ops reg).map Prod.fst).Nodup := by
      intro ops
      induction ops with
      | nil => intro reg h; simpa [applyRegistrations] using h
      | cons p t ih =>
          intro reg h
          exact ih (dictInsert reg p.1 p.2) (nodup_keys_dictInsert h)
    exact this ops [] (by simp)

/-- C6: a function whose declared parameter list contains a parameter whose
type fails to resolve (it is absent from the resolved hints map) still
yields a `FunctionInfo`, with that parameter tagged `"Any"` — extraction is
not aborted for the function. -/
theorem extract_function_info_unresolved_param_any :
    ∀ (n : String) (func : PyFunction) (sig : PySignature)
      (hints : TypeHints) (p : PyParameter),
      func.introspection = some (sig, hints) →
      p ∈ sig.parameters →
      p.name ≠ "self" →
      List.lookup p.name hints = none →
      ∃ info, extract_function_info n func = some info ∧
        (⟨p.name, "Any", !p.hasDefault, none⟩ : ArgumentInfo) ∈ info.args := by
  intro n func sig hints p hi hp hself hlk
  refine ⟨{ name := n, description := _extract_description func,
            args := _extract_arguments sig hints,
            returnType := _extract_return_type hints }, ?_, ?_⟩
  · simp [extract_function_info, hi]
  · unfold _extract_arguments
    refine List.mem_map.mpr ⟨p, List.mem_filter.mpr ⟨hp, by simp [hself]⟩, ?_⟩
    simp [hlk]

/-- A callable with a single unannotated parameter `x`, for instantiating
the extractor theorem. -/
def unannotatedFn : PyFunction := ⟨some (⟨[⟨"x", false⟩]⟩, []), none, none⟩

/-- Witness for C6 at `unannotatedFn`. -/
theorem extract_function_info_unresolved_param_any_witness :
    ∃ info, extract_function_info "f" unannotatedFn = some info ∧
      (⟨"x", "Any", true, none⟩ : ArgumentInfo) ∈ info.args :=
  extract_function_info_unresolved_param_any "f" unannotatedFn
    ⟨[⟨"x", false⟩]⟩ [] ⟨"x", false⟩ rfl (by simp) (by simp) rfl

/-- C7: an iteration of the health-check loop in which a non-cancellation
error occurs logs the error, sleeps `min(interval, 30)` and continues with
the remaining schedule (the error does not affect how the loop ends); and
a run whose iterations all have `_running = true` and no cancellation never
terminates — only a false `_running` flag (set by `stop()`) or cancellation
can end the loop. -/
theorem health_loop_error_logs_sleeps_continues :
    (∀ (interval : ℕ) (m : String) (rest : List (Bool × IterEvent)),
        _health_check_loop interval ((true, .err m) :: rest)
          = (TraceItem.logError m :: TraceItem.sleep (min interval 30)
               :: (_health_check_loop interval rest).1,
             (_health_check_loop interval rest).2)) ∧
    (∀ (interval : ℕ) (evs : List (Bool × IterEvent)),
        (∀ e ∈ evs, e.1 = true ∧ e.2 ≠ IterEvent.cancelled) →
        (_health_check_loop interval evs).2 = .pending) := by
  constructor
  · intro interval m rest
    simp [_health_check_loop]
  · intro interval evs
    induction evs with
    | nil => intro _; simp [_health_check_loop]
    | cons e rest ih =>
        intro hall
        obtain ⟨he1, he2⟩ := hall e (List.mem_cons_self e rest)
        obtain ⟨b, ev⟩ := e
        have hb : b = true := he1
        subst hb
        have hrest := ih (fun x hx => hall x (List.mem_cons_of_mem _ hx))
        rcases ev with _ | m | _
        · simp [_health_check_loop, hrest]
        · simp [_health_check_loop, hrest]
        · exact absurd rfl he2

/-- Witness for C7: a two-iteration schedule whose first iteration errors
still runs to the end of the schedule with the loop pending. -/
theorem health_loop_error_witness :
    (_health_check_loop 60 [(true, .err "boom"), (true, .ok)]).2
      = .pending :=
  health_loop_error_logs_sleeps_continues.2 60
    [(true, .err "boom"), (true, .ok)] (by simp)

theorem backoff_step (d k : ℕ) :
    min (min (d * 2) 60 * 2 ^ k) 60 = min (d * 2 * 2 ^ k) 60 := by
  rcases le_total (d * 2) 60 with h | h
  · rw [min_eq_left h]
  · rw [min_eq_right h]
    have h1 : 60 ≤ 60 * 2 ^ k := Nat.le_mul_of_pos_right 60 (Nat.pos_pow_of_pos k (by norm_num))
    have h2 : 60 * 2 ^ k ≤ d * 2 * 2 ^ k := Nat.mul_le_mul_right _ h
    rw [min_eq_right h1, min_eq_right (le_trans h1 h2)]

theorem connectAux_all_fail (att : ℕ → Bool) (hatt : ∀ i, att i = false) :
    ∀ (n d idx : ℕ), d ≤ 60 →
      connectAux att n d idx
        = ⟨false, (List.range (n - 1)).map (fun k => min (d * 2 ^ k) 60), n⟩ := by
  intro n
  induction n with
  | zero => intro d idx _; simp [connectAux]
  | succ n ih =>
      intro d idx hd
      simp only [connectAux, hatt idx, Bool.false_eq_true, if_false]
      by_cases hn : n = 0
      · subst hn
        simp
      · simp only [hn, if_false,
          ih (min (d * 2) 60) (idx + 1) (min_le_right _ _)]
        obtain ⟨m, rfl⟩ : ∃ m, n = m + 1 :=
          ⟨n - 1, (Nat.succ_pred_eq_of_pos (Nat.pos_of_ne_zero hn)).symm⟩
        simp only [ConnectResult.mk.injEq, true_and, and_true]
        rw [Nat.add_sub_cancel, Nat.add_sub_cancel, List.range_succ_eq_map,
          List.map_cons, List.map_map]
        refine congrArg₂ _ ?_ ?_
        · simp [Nat.min_eq_left hd]
        · refine List.map_congr_left (fun k _ => ?_)
          simp only [Function.comp_apply]
          rw [backoff_step]
          congr 1
          rw [pow_succ]
          ring

theorem connectAux_attempts_le (att : ℕ → Bool) :
    ∀ (n d idx : ℕ), (connectAux att n d idx).attempts ≤ n := by
  intro n
  induction n with
  | zero => intro d idx; simp [connectAux]
  | succ n ih =>
      intro d idx
      by_cases h : att idx = true
      · simp [connectAux, h]
      · rcases Nat.eq_zero_or_pos n with hn | hn
        · subst hn; simp [connectAux, h]
        · obtain ⟨m, rfl⟩ : ∃ m, n = m + 1 :=
            ⟨n - 1, (Nat.succ_pred_eq_of_pos hn).symm⟩
          simp only [connectAux, h, Bool.false_eq_true, if_false,
            Nat.succ_ne_zero]
          exact Nat.succ_le_succ (ih _ _)

/-- C8: with a configured retry delay of at most 60 (the config bound), a
`connect` whose attempts all fail sleeps exactly
`min(retry_delay * 2 ^ k, 60)` before retry `k + 1` — the delay starts at
the configured value, doubles after each failed attempt, and is capped at
60 — makes exactly `max_retries` attempts, and returns `connected = false`
(the embedding is a total function: nothing is raised); and no attempt
schedule ever produces more than `max_retries` attempts. -/
theorem connect_backoff_bounded :
    ∀ (m d : ℕ) (att : ℕ → Bool),
      d ≤ 60 →
      (∀ i, att i = false) →
      (connect false true m d att
          = ⟨false, (List.range (m - 1)).map (fun k => min (d * 2 ^ k) 60), m⟩ ∧
        ∀ s ∈ (connect false true m d att).sleeps, s ≤ 60) ∧
      (∀ att2 : ℕ → Bool, (connect false true m d att2).attempts ≤ m) := by
  intro m d att hd hatt
  have hc : ∀ att2 : ℕ → Bool, connect false true m d att2 = connectAux att2 m d 0 :=
    fun att2 => rfl
  have hform := connectAux_all_fail att hatt m d 0 hd
  refine ⟨⟨(hc att).trans hform, ?_⟩,
    fun att2 => (hc att2) ▸ connectAux_attempts_le att2 m d 0⟩
  intro s hs
  rw [hc att, hform] at hs
  obtain ⟨k, -, rfl⟩ := List.mem_map.mp hs
  exact min_le_right _ _

/-- Witness for C8 at the default configuration (5 retries, 5-unit delay):
four sleeps of 5, 10, 20, 40 units, five attempts, and a `false` result. -/
theorem connect_backoff_bounded_witness :
    connect false true 5 5 (fun _ => false)
      = ⟨false, [5, 10, 20, 40], 5⟩ := by
  rw [(connect_backoff_bounded 5 5 (fun _ => false) (by norm_num)
    (fun i => rfl)).1.1]
  rfl

/-- The server state used to instantiate the `/ready` theorems. -/
def sampleServer : FunctionServerState := ⟨"local-dev", demoRegistry, true, false⟩

/-- C9 counterexample: the `/ready` body does not satisfy the field names
the claim asserts — there is no `deploymentId` key (the code emits
`deployment_id`, `function_count`, `rabbitmq_enabled`, `rabbitmq_connected`
in snake case). -/
theorem ready_spec_field_names_refuted :
    ¬ readySpecShape (ready sampleServer) sampleServer := by
  intro h
  obtain ⟨-, ⟨v, hv⟩, -⟩ := h
  have hnone : List.lookup "deploymentId" (ready sampleServer) = none := rfl
  rw [hnone] at hv
  cases hv

/-- C9 amended: for every server state the `/ready` body is an object with
`status = "ready"`, `deployment_id`, `function_count` equal to the number
of registered functions, `functions` equal to the list of registered names,
`rabbitmq_enabled` the events flag, and `rabbitmq_connected` true iff the
event publisher object exists. -/
theorem ready_endpoint_fields :
    ∀ s : FunctionServerState,
      List.lookup "status" (ready s) = some (Value.str "ready") ∧
      List.lookup "deployment_id" (ready s)
        = some (Value.str s.deployment_id) ∧
      List.lookup "function_count" (ready s)
        = some (Value.num (s.function_registry.length : ℤ)) ∧
      List.lookup "functions" (ready s)
        = some (Value.arr (s.function_registry.map (fun p => Value.str p.1))) ∧
      List.lookup "rabbitmq_enabled" (ready s)
        = some (Value.bool s.enable_events) ∧
      List.lookup "rabbitmq_connected" (ready s)
        = some (Value.bool s.event_publisher_some) := by
  intro s
  exact ⟨rfl, rfl, rfl, rfl, rfl, rfl⟩

/-- C10: a handler constructed with an explicit timeout of 0 is identical
to one constructed with no timeout argument — the falsy requested value is
replaced by the configured default — and with no environment overrides the
effective timeout is 30, not 0. The effective timeout is a field fixed by
the constructor, so it is shared by all subsequent requests by
construction. -/
theorem falsy_timeout_uses_default :
    (∀ (reg : Registry) (e m : Option ℚ),
        FunctionHandler.init reg (some 0) e m
          = FunctionHandler.init reg none e m) ∧
    (∀ reg : Registry,
        (FunctionHandler.init reg (some 0) none none).timeout = 30) ∧
    (∀ reg : Registry,
        (FunctionHandler.init reg none none none).timeout = 30) := by
  refine ⟨fun reg e m => by simp [FunctionHandler.init, pyOr], ?_, ?_⟩
  · intro reg
    simp [FunctionHandler.init, pyOr]
    norm_num
  · intro reg
    simp [FunctionHandler.init, pyOr]
    norm_num

end FunctionsCore
